import Mathlib

/- Verification of the cash-flow valuation engine, the hybrid XIRR rate solver
(src/backend/cpp_finance/finance_calc.cpp) and the rolling-window indicator
engine (src/backend/cpp_indicators/indicators.cpp).

Modelling conventions: C++ doubles are modelled as real numbers, `std::pow` as
`Real.rpow`, vectors as lists of reals (out-of-range reads via `List.getD` with
default 0 only where the source itself stays in range), and the NaN "no
solution" sentinel as `none : Option ℝ`. The iteration caps of the solver
become explicit fuel arguments. -/

/-- A dated cash flow (finance_calc.cpp, `struct CashFlow`). -/
structure CashFlow where
  days_from_start : ℝ
  amount : ℝ

/-- Net present value at a given rate (finance_calc.cpp, `calculate_npv`):
each amount is discounted by `(1+rate)^(days/365.25)` and the results summed. -/
noncomputable def calculate_npv (cashflows : List CashFlow) (rate : ℝ) : ℝ :=
  (cashflows.map (fun cf => cf.amount / (1 + rate) ^ (cf.days_from_start / 365.25))).sum

/-- Derivative of NPV with respect to rate (finance_calc.cpp,
`calculate_npv_derivative`): sum of `-years * amount / (1+rate)^(years+1)`. -/
noncomputable def calculate_npv_derivative (cashflows : List CashFlow) (rate : ℝ) : ℝ :=
  (cashflows.map (fun cf =>
    -(cf.days_from_start / 365.25) * cf.amount /
      (1 + rate) ^ (cf.days_from_start / 365.25 + 1))).sum

/-- Absolute NPV tolerance of the solver (finance_calc.cpp, `TOLERANCE`). -/
noncomputable def TOLERANCE : ℝ := 1e-7

/-- Lower operational rate bound (finance_calc.cpp, `MIN_RATE`). -/
noncomputable def MIN_RATE : ℝ := -0.999

/-- Upper operational rate bound (finance_calc.cpp, `MAX_RATE`). -/
noncomputable def MAX_RATE : ℝ := 10

/-- Clamping of a Newton step into `[MIN_RATE, MAX_RATE]` (finance_calc.cpp,
`std::max(MIN_RATE, std::min(MAX_RATE, new_rate))`). -/
noncomputable def clampRate (r : ℝ) : ℝ := max MIN_RATE (min MAX_RATE r)

/-- The Newton-Raphson phase of `calculate_xirr` (finance_calc.cpp, the first
loop): `some rate` models the two `return rate` exits, `none` models every way
of falling through to the bisection fallback (flat derivative `break`,
step-converged-but-NPV-too-large `break`, or running out of iterations). -/
noncomputable def newtonIter (cashflows : List CashFlow) : ℕ → ℝ → Option ℝ
  | 0, _ => none
  | fuel + 1, rate =>
    if |calculate_npv cashflows rate| < TOLERANCE ∧ MIN_RATE < rate ∧ rate < MAX_RATE then
      some rate
    else if |calculate_npv_derivative cashflows rate| < 1e-10 then
      none
    else if |clampRate (rate - calculate_npv cashflows rate / calculate_npv_derivative cashflows rate) - rate| < TOLERANCE then
      if |calculate_npv cashflows (clampRate (rate - calculate_npv cashflows rate / calculate_npv_derivative cashflows rate))| < TOLERANCE then
        some (clampRate (rate - calculate_npv cashflows rate / calculate_npv_derivative cashflows rate))
      else
        none
    else
      newtonIter cashflows fuel (clampRate (rate - calculate_npv cashflows rate / calculate_npv_derivative cashflows rate))

/-- The bounded-bisection phase of `calculate_xirr` (finance_calc.cpp, the
second loop), with the running `npv_low` value threaded explicitly; the two
branches of the bracket update each inline the subsequent width check. -/
noncomputable def bisectIter (cashflows : List CashFlow) : ℕ → ℝ → ℝ → ℝ → Option ℝ
  | 0, _, _, _ => none
  | fuel + 1, low, high, npv_low =>
    if |calculate_npv cashflows ((low + high) / 2)| < TOLERANCE then
      some ((low + high) / 2)
    else if calculate_npv cashflows ((low + high) / 2) * npv_low < 0 then
      if (low + high) / 2 - low < TOLERANCE then
        some ((low + (low + high) / 2) / 2)
      else
        bisectIter cashflows fuel low ((low + high) / 2) npv_low
    else
      if high - (low + high) / 2 < TOLERANCE then
        some (((low + high) / 2 + high) / 2)
      else
        bisectIter cashflows fuel ((low + high) / 2) high
          (calculate_npv cashflows ((low + high) / 2))

/-- XIRR solver (finance_calc.cpp, `calculate_xirr`): fewer than two cash flows
give the sentinel, then 50 Newton iterations, then the bracket test and up to
100 bisection iterations. `none` models the NaN sentinel. -/
noncomputable def calculate_xirr (cashflows : List CashFlow) (initial_guess : ℝ := 0.1) :
    Option ℝ :=
  if cashflows.length < 2 then none
  else
    match newtonIter cashflows 50 initial_guess with
    | some r => some r
    | none =>
      if calculate_npv cashflows MIN_RATE * calculate_npv cashflows MAX_RATE > 0 then
        none
      else
        bisectIter cashflows 100 MIN_RATE MAX_RATE (calculate_npv cashflows MIN_RATE)

theorem newtonIter_succ (cashflows : List CashFlow) (fuel : ℕ) (rate : ℝ) :
    newtonIter cashflows (fuel + 1) rate =
      if |calculate_npv cashflows rate| < TOLERANCE ∧ MIN_RATE < rate ∧ rate < MAX_RATE then
        some rate
      else if |calculate_npv_derivative cashflows rate| < 1e-10 then
        none
      else if |clampRate (rate - calculate_npv cashflows rate / calculate_npv_derivative cashflows rate) - rate| < TOLERANCE then
        if |calculate_npv cashflows (clampRate (rate - calculate_npv cashflows rate / calculate_npv_derivative cashflows rate))| < TOLERANCE then
          some (clampRate (rate - calculate_npv cashflows rate / calculate_npv_derivative cashflows rate))
        else
          none
      else
        newtonIter cashflows fuel (clampRate (rate - calculate_npv cashflows rate / calculate_npv_derivative cashflows rate)) :=
  rfl

theorem bisectIter_succ (cashflows : List CashFlow) (fuel : ℕ) (low high npv_low : ℝ) :
    bisectIter cashflows (fuel + 1) low high npv_low =
      if |calculate_npv cashflows ((low + high) / 2)| < TOLERANCE then
        some ((low + high) / 2)
      else if calculate_npv cashflows ((low + high) / 2) * npv_low < 0 then
        if (low + high) / 2 - low < TOLERANCE then
          some ((low + (low + high) / 2) / 2)
        else
          bisectIter cashflows fuel low ((low + high) / 2) npv_low
      else
        if high - (low + high) / 2 < TOLERANCE then
          some (((low + high) / 2 + high) / 2)
        else
          bisectIter cashflows fuel ((low + high) / 2) high
            (calculate_npv cashflows ((low + high) / 2)) :=
  rfl

theorem clampRate_le (r : ℝ) : clampRate r ≤ MAX_RATE := by
  refine max_le (by norm_num [MIN_RATE, MAX_RATE]) (min_le_left _ _)

theorem le_clampRate (r : ℝ) : MIN_RATE ≤ clampRate r := le_max_left _ _

/-- Any value accepted by the Newton phase has NPV inside the tolerance and lies
in the closed operational rate interval. -/
theorem newton_some_spec (cashflows : List CashFlow) :
    ∀ (fuel : ℕ) (guess r : ℝ), newtonIter cashflows fuel guess = some r →
      |calculate_npv cashflows r| < TOLERANCE ∧ MIN_RATE ≤ r ∧ r ≤ MAX_RATE := by
  intro fuel
  induction fuel with
  | zero =>
    intro guess r h
    exact absurd h (by simp [newtonIter])
  | succ k ih =>
    intro guess r h
    rw [newtonIter_succ] at h
    split_ifs at h with h1 h2 h3 h4
    all_goals first
      | (exact Option.noConfusion h)
      | (obtain rfl := Option.some.inj h
         exact ⟨h1.1, h1.2.1.le, h1.2.2.le⟩)
      | (obtain rfl := Option.some.inj h
         exact ⟨h4, le_clampRate _, clampRate_le _⟩)
      | (exact ih _ r h)

/-- Claim C4: for every cash-flow sequence with fewer than 2 cash flows and
every initial guess, `calculate_xirr` returns the NaN sentinel (modelled as
`none`) rather than raising an exception (the embedding is total). -/
theorem c4_undersupplied_returns_sentinel (cashflows : List CashFlow) (initial_guess : ℝ)
    (h : cashflows.length < 2) : calculate_xirr cashflows initial_guess = none := by
  rw [calculate_xirr, if_pos h]

/-- Witness for C4 at the empty cash-flow sequence. -/
theorem c4_witness : ([] : List CashFlow).length < 2 ∧ calculate_xirr [] 0.1 = none :=
  ⟨by simp, c4_undersupplied_returns_sentinel [] 0.1 (by simp)⟩

/-- Claim C2: every non-`none` value returned from the Newton phase of the
solver has present value within the `1e-7` tolerance at the returned rate; the
immediate accept requires the rate strictly inside `(-0.999, 10)` and the
step-size-convergence exit re-evaluates NPV at the clamped new rate, so both
accepting exits guarantee `|NPV| < TOLERANCE`. -/
theorem c2_newton_accepts_only_small_npv (cashflows : List CashFlow) (fuel : ℕ)
    (guess r : ℝ) (h : newtonIter cashflows fuel guess = some r) :
    |calculate_npv cashflows r| < TOLERANCE :=
  (newton_some_spec cashflows fuel guess r h).1

/-- Witness for C2: on cash flows `[(0, -100), (365.25, 110)]` the NPV at the
default guess `0.1` is exactly zero, so the Newton phase accepts immediately
and the accepted rate indeed has `|NPV| < TOLERANCE`. -/
theorem c2_witness :
    newtonIter [⟨0, -100⟩, ⟨365.25, 110⟩] 50 0.1 = some 0.1 ∧
      |calculate_npv [⟨0, -100⟩, ⟨365.25, 110⟩] (0.1 : ℝ)| < TOLERANCE := by
  have hnpv : calculate_npv [⟨0, -100⟩, ⟨365.25, 110⟩] (0.1 : ℝ) = 0 := by
    simp only [calculate_npv, List.map_cons, List.map_nil, List.sum_cons, List.sum_nil]
    norm_num [Real.rpow_zero, Real.rpow_one]
  have hrun : newtonIter [⟨0, -100⟩, ⟨365.25, 110⟩] 50 0.1 = some 0.1 := by
    rw [show (50 : ℕ) = 49 + 1 from rfl, newtonIter_succ]
    rw [if_pos ⟨by rw [hnpv]; norm_num [TOLERANCE],
      by norm_num [MIN_RATE], by norm_num [MAX_RATE]⟩]
  exact ⟨hrun, c2_newton_accepts_only_small_npv _ 50 0.1 0.1 hrun⟩

/-- Pointwise comparison of mapped list sums. -/
theorem list_map_sum_le {α : Type} (l : List α) (f g : α → ℝ)
    (h : ∀ x ∈ l, f x ≤ g x) : (l.map f).sum ≤ (l.map g).sum := by
  induction l with
  | nil => simp
  | cons a t ih =>
    simp only [List.map_cons, List.sum_cons]
    exact add_le_add (h a (List.mem_cons_self a t))
      (ih fun x hx => h x (List.mem_cons_of_mem a hx))

/-- If the NPV stays at or above the tolerance throughout the clamped rate
interval, the Newton phase can never accept and always falls through. -/
theorem newton_none_of_npv_big (cashflows : List CashFlow)
    (H : ∀ r, MIN_RATE ≤ r → r ≤ MAX_RATE → TOLERANCE ≤ calculate_npv cashflows r) :
    ∀ (fuel : ℕ) (rate : ℝ), newtonIter cashflows fuel rate = none := by
  intro fuel
  induction fuel with
  | zero => intro rate; rfl
  | succ k ih =>
    intro rate
    rw [newtonIter_succ]
    have hnotacc : ¬(|calculate_npv cashflows rate| < TOLERANCE ∧
        MIN_RATE < rate ∧ rate < MAX_RATE) := by
      rintro ⟨ha, hb, hc⟩
      have h1 := H rate hb.le hc.le
      have h2 := le_abs_self (calculate_npv cashflows rate)
      linarith
    rw [if_neg hnotacc]
    set nr := clampRate (rate -
      calculate_npv cashflows rate / calculate_npv_derivative cashflows rate) with hnr
    have hnr1 : MIN_RATE ≤ nr := by rw [hnr]; exact le_clampRate _
    have hnr2 : nr ≤ MAX_RATE := by rw [hnr]; exact clampRate_le _
    split_ifs with h2 h3 h4
    · rfl
    · exfalso
      have h5 := H nr hnr1 hnr2
      have h6 := le_abs_self (calculate_npv cashflows nr)
      linarith
    · rfl
    · exact ih nr

/-- Claim C3 (amended): on at least two cash flows with nonnegative day offsets
and all-positive amounts that are moreover large enough that the NPV stays at
or above the `1e-7` tolerance throughout the clamped rate domain (it suffices
that the amounts discounted at the maximal base 11 sum to at least the
tolerance), `calculate_xirr` returns the NaN sentinel for every initial guess:
no root is bracketed because NPV is positive at both endpoints. -/
theorem c3_amended (cashflows : List CashFlow) (initial_guess : ℝ)
    (hlen : 2 ≤ cashflows.length)
    (hpos : ∀ cf ∈ cashflows, 0 < cf.amount)
    (hdays : ∀ cf ∈ cashflows, 0 ≤ cf.days_from_start)
    (hbig : TOLERANCE ≤ (cashflows.map
      (fun cf => cf.amount / (11 : ℝ) ^ (cf.days_from_start / 365.25))).sum) :
    calculate_xirr cashflows initial_guess = none := by
  have H : ∀ r, MIN_RATE ≤ r → r ≤ MAX_RATE → TOLERANCE ≤ calculate_npv cashflows r := by
    intro r hr1 hr2
    rw [calculate_npv]
    refine le_trans hbig (list_map_sum_le cashflows _ _ ?_)
    intro cf hcf
    have h01 : (0 : ℝ) < 1 + r := by
      rw [MIN_RATE] at hr1; linarith
    have h1r11 : 1 + r ≤ 11 := by
      rw [MAX_RATE] at hr2; linarith
    have hy : 0 ≤ cf.days_from_start / 365.25 :=
      div_nonneg (hdays cf hcf) (by norm_num)
    have hple : (1 + r) ^ (cf.days_from_start / 365.25) ≤
        (11 : ℝ) ^ (cf.days_from_start / 365.25) :=
      Real.rpow_le_rpow h01.le h1r11 hy
    have hppos : 0 < (1 + r) ^ (cf.days_from_start / 365.25) :=
      Real.rpow_pos_of_pos h01 _
    exact div_le_div_of_nonneg_left (hpos cf hcf).le hppos hple
  have hl : ¬cashflows.length < 2 := by omega
  have hlo : TOLERANCE ≤ calculate_npv cashflows MIN_RATE :=
    H MIN_RATE le_rfl (by norm_num [MIN_RATE, MAX_RATE])
  have hhi : TOLERANCE ≤ calculate_npv cashflows MAX_RATE :=
    H MAX_RATE (by norm_num [MIN_RATE, MAX_RATE]) le_rfl
  have htol : (0 : ℝ) < TOLERANCE := by norm_num [TOLERANCE]
  have hprod : calculate_npv cashflows MIN_RATE * calculate_npv cashflows MAX_RATE > 0 :=
    mul_pos (lt_of_lt_of_le htol hlo) (lt_of_lt_of_le htol hhi)
  rw [calculate_xirr, if_neg hl, newton_none_of_npv_big cashflows H 50 initial_guess]
  exact if_pos hprod

/-- Witness for amended C3 at the specification's own example `[(0,100),(365,50)]`
with the default guess. -/
theorem c3_witness : calculate_xirr [⟨0, 100⟩, ⟨365, 50⟩] 0.1 = none := by
  apply c3_amended
  · norm_num
  · intro cf hcf
    simp only [List.mem_cons, List.not_mem_nil, or_false] at hcf
    rcases hcf with rfl | rfl <;> norm_num
  · intro cf hcf
    simp only [List.mem_cons, List.not_mem_nil, or_false] at hcf
    rcases hcf with rfl | rfl <;> norm_num
  · have hp : (0 : ℝ) < 50 / (11 : ℝ) ^ ((365 : ℝ) / 365.25) :=
      div_pos (by norm_num) (Real.rpow_pos_of_pos (by norm_num) _)
    simp only [List.map_cons, List.map_nil, List.sum_cons, List.sum_nil, TOLERANCE]
    rw [show (0 : ℝ) / 365.25 = 0 by norm_num, Real.rpow_zero, div_one, add_zero]
    linarith

/-- The all-positive two-flow sequence with tiny amounts that refutes claim C3. -/
noncomputable def tinyFlows : List CashFlow := [⟨0, 1e-9⟩, ⟨365, 1e-9⟩]

/-- NPV of a two-flow sequence whose first flow is dated at day 0. -/
theorem npv_pair_day_zero (a b d r : ℝ) :
    calculate_npv [⟨0, a⟩, ⟨d, b⟩] r = a + b / (1 + r) ^ (d / 365.25) := by
  simp only [calculate_npv, List.map_cons, List.map_nil, List.sum_cons, List.sum_nil]
  rw [show (0 : ℝ) / 365.25 = 0 by norm_num, Real.rpow_zero, div_one, add_zero]

/-- Claim C3 counterexample: `[(0, 1e-9), (365, 1e-9)]` has at least two cash
flows and only positive amounts, yet `calculate_xirr` does not return the NaN
sentinel: the NPV at the default guess `0.1` is below the `1e-7` tolerance, so
the Newton phase accepts `0.1` immediately. -/
theorem c3_counterexample :
    2 ≤ tinyFlows.length ∧ (∀ cf ∈ tinyFlows, 0 < cf.amount) ∧
      calculate_xirr tinyFlows 0.1 = some 0.1 ∧ calculate_xirr tinyFlows 0.1 ≠ none := by
  have hpow : 1 < (1 + (0.1 : ℝ)) ^ ((365 : ℝ) / 365.25) :=
    (Real.one_lt_rpow_iff_of_pos (by norm_num)).mpr (Or.inl ⟨by norm_num, by norm_num⟩)
  have hppos : (0 : ℝ) < (1 + (0.1 : ℝ)) ^ ((365 : ℝ) / 365.25) := by linarith
  have ht1 : (0 : ℝ) < 1e-9 / (1 + (0.1 : ℝ)) ^ ((365 : ℝ) / 365.25) :=
    div_pos (by norm_num) hppos
  have ht2 : 1e-9 / (1 + (0.1 : ℝ)) ^ ((365 : ℝ) / 365.25) < 1e-9 :=
    div_lt_self (by norm_num) hpow
  have hnpv : calculate_npv tinyFlows 0.1 =
      1e-9 + 1e-9 / (1 + (0.1 : ℝ)) ^ ((365 : ℝ) / 365.25) := by
    simp only [tinyFlows]
    exact npv_pair_day_zero _ _ _ _
  have habs : |calculate_npv tinyFlows 0.1| < TOLERANCE := by
    rw [hnpv, abs_of_pos (by linarith)]
    simp only [TOLERANCE]
    linarith
  have hnewton : newtonIter tinyFlows 50 0.1 = some 0.1 := by
    rw [show (50 : ℕ) = 49 + 1 from rfl, newtonIter_succ]
    rw [if_pos ⟨habs, by norm_num [MIN_RATE], by norm_num [MAX_RATE]⟩]
  have hx : calculate_xirr tinyFlows 0.1 = some 0.1 := by
    rw [calculate_xirr, if_neg (by norm_num [tinyFlows]), hnewton]
  refine ⟨by norm_num [tinyFlows], ?_, hx, by rw [hx]; simp⟩
  intro cf hcf
  simp only [tinyFlows, List.mem_cons, List.not_mem_nil, or_false] at hcf
  rcases hcf with rfl | rfl <;> norm_num

/-- Pointwise-vs-strict comparison of mapped list sums. -/
theorem list_map_sum_lt {α : Type} (l : List α) (f g : α → ℝ)
    (hle : ∀ x ∈ l, f x ≤ g x) (hlt : ∃ x ∈ l, f x < g x) :
    (l.map f).sum < (l.map g).sum := by
  induction l with
  | nil => simp at hlt
  | cons a t ih =>
    simp only [List.map_cons, List.sum_cons]
    rcases hlt with ⟨x, hx, hfg⟩
    rcases List.mem_cons.mp hx with rfl | hxt
    · exact add_lt_add_of_lt_of_le hfg
        (list_map_sum_le t f g fun y hy => hle y (List.mem_cons_of_mem _ hy))
    · exact add_lt_add_of_le_of_lt (hle a (List.mem_cons_self a t))
        (ih (fun y hy => hle y (List.mem_cons_of_mem _ hy)) ⟨x, hxt, hfg⟩)

/-- A discounted cash-flow term is weakly antitone in the rate on `(-1, ∞)`
when the flow is dated at day 0 (constant) or has nonnegative offset and
nonnegative amount. -/
theorem npv_term_antitone (cf : CashFlow)
    (hcf : cf.days_from_start = 0 ∨ (0 ≤ cf.days_from_start ∧ 0 ≤ cf.amount))
    {r1 r2 : ℝ} (h1 : -1 < r1) (h12 : r1 < r2) :
    cf.amount / (1 + r2) ^ (cf.days_from_start / 365.25) ≤
      cf.amount / (1 + r1) ^ (cf.days_from_start / 365.25) := by
  rcases hcf with h0 | ⟨hd, ha⟩
  · rw [h0, show (0 : ℝ) / 365.25 = 0 by norm_num, Real.rpow_zero, Real.rpow_zero]
  · have hb1 : (0 : ℝ) < 1 + r1 := by linarith
    have hy : 0 ≤ cf.days_from_start / 365.25 := div_nonneg hd (by norm_num)
    have hle : (1 + r1) ^ (cf.days_from_start / 365.25) ≤
        (1 + r2) ^ (cf.days_from_start / 365.25) :=
      Real.rpow_le_rpow hb1.le (by linarith) hy
    exact div_le_div_of_nonneg_left ha (Real.rpow_pos_of_pos hb1 _) hle

/-- A discounted cash-flow term with strictly positive offset and amount is
strictly antitone in the rate on `(-1, ∞)`. -/
theorem npv_term_strict_anti (cf : CashFlow)
    (hd : 0 < cf.days_from_start) (ha : 0 < cf.amount)
    {r1 r2 : ℝ} (h1 : -1 < r1) (h12 : r1 < r2) :
    cf.amount / (1 + r2) ^ (cf.days_from_start / 365.25) <
      cf.amount / (1 + r1) ^ (cf.days_from_start / 365.25) := by
  have hb1 : (0 : ℝ) < 1 + r1 := by linarith
  have hy : 0 < cf.days_from_start / 365.25 := div_pos hd (by norm_num)
  have hlt : (1 + r1) ^ (cf.days_from_start / 365.25) <
      (1 + r2) ^ (cf.days_from_start / 365.25) :=
    Real.rpow_lt_rpow hb1.le (by linarith) hy
  exact div_lt_div_of_pos_left ha (Real.rpow_pos_of_pos hb1 _) hlt

/-- Under the amended side conditions, NPV is strictly decreasing in the rate
on the admissible domain `(-1, ∞)`. -/
theorem npv_strictAntiOn (cashflows : List CashFlow)
    (h1 : ∀ cf ∈ cashflows,
      cf.days_from_start = 0 ∨ (0 ≤ cf.days_from_start ∧ 0 ≤ cf.amount))
    (h2 : ∃ cf ∈ cashflows, 0 < cf.days_from_start ∧ 0 < cf.amount) :
    StrictAntiOn (fun r => calculate_npv cashflows r) (Set.Ioi (-1 : ℝ)) := by
  intro r1 hr1 r2 hr2 h12
  simp only [calculate_npv]
  rcases h2 with ⟨cf0, hcf0, hd0, ha0⟩
  refine list_map_sum_lt cashflows _ _ ?_ ⟨cf0, hcf0, ?_⟩
  · intro cf hcf
    exact npv_term_antitone cf (h1 cf hcf) (Set.mem_Ioi.mp hr1) h12
  · exact npv_term_strict_anti cf0 hd0 ha0 (Set.mem_Ioi.mp hr1) h12

/-- Under the amended side conditions, the NPV derivative is strictly negative
on the admissible domain. -/
theorem npv_deriv_neg (cashflows : List CashFlow)
    (h1 : ∀ cf ∈ cashflows,
      cf.days_from_start = 0 ∨ (0 ≤ cf.days_from_start ∧ 0 ≤ cf.amount))
    (h2 : ∃ cf ∈ cashflows, 0 < cf.days_from_start ∧ 0 < cf.amount)
    {r : ℝ} (hr : -1 < r) : calculate_npv_derivative cashflows r < 0 := by
  have hb : (0 : ℝ) < 1 + r := by linarith
  rcases h2 with ⟨cf0, hcf0, hd0, ha0⟩
  have h := list_map_sum_lt cashflows
    (fun cf => -(cf.days_from_start / 365.25) * cf.amount /
      (1 + r) ^ (cf.days_from_start / 365.25 + 1))
    (fun _ => 0) ?_ ?_
  · rw [calculate_npv_derivative]
    calc (cashflows.map (fun cf => -(cf.days_from_start / 365.25) * cf.amount /
          (1 + r) ^ (cf.days_from_start / 365.25 + 1))).sum
        < (cashflows.map (fun (_ : CashFlow) => (0 : ℝ))).sum := h
      _ = 0 := by simp
  · intro cf hcf
    show -(cf.days_from_start / 365.25) * cf.amount /
      (1 + r) ^ (cf.days_from_start / 365.25 + 1) ≤ 0
    rcases h1 cf hcf with h0 | ⟨hd, ha⟩
    · rw [h0]
      norm_num
    · have hnum : -(cf.days_from_start / 365.25) * cf.amount ≤ 0 := by
        have := mul_nonneg (div_nonneg hd (by norm_num : (0:ℝ) ≤ 365.25)) ha
        linarith
      exact div_nonpos_iff.mpr (Or.inr ⟨hnum, (Real.rpow_pos_of_pos hb _).le⟩)
  · refine ⟨cf0, hcf0, ?_⟩
    show -(cf0.days_from_start / 365.25) * cf0.amount /
      (1 + r) ^ (cf0.days_from_start / 365.25 + 1) < 0
    have hnum : -(cf0.days_from_start / 365.25) * cf0.amount < 0 := by
      have := mul_pos (div_pos hd0 (by norm_num : (0:ℝ) < 365.25)) ha0
      linarith
    exact div_neg_of_neg_of_pos hnum (Real.rpow_pos_of_pos hb _)

/-- Claim C5 counterexample: the single flow `[(365.25, -100)]` has positive
offset and nonzero amount, yet its NPV is strictly increasing in the rate
(NPV(0) = -100 < -50 = NPV(1)) and its derivative at rate 0 is +100, refuting
both the claimed strict decrease and the claimed negative derivative. -/
theorem c5_counterexample :
    (∃ cf ∈ [(⟨365.25, -100⟩ : CashFlow)], 0 < cf.days_from_start ∧ cf.amount ≠ 0) ∧
      ¬ StrictAntiOn (fun r => calculate_npv [(⟨365.25, -100⟩ : CashFlow)] r)
        (Set.Ioi (-1 : ℝ)) ∧
      0 < calculate_npv_derivative [(⟨365.25, -100⟩ : CashFlow)] 0 := by
  have hnpv : ∀ r : ℝ, calculate_npv [(⟨365.25, -100⟩ : CashFlow)] r =
      -100 / (1 + r) ^ ((1 : ℝ)) := by
    intro r
    simp only [calculate_npv, List.map_cons, List.map_nil, List.sum_cons, List.sum_nil,
      add_zero]
    norm_num
  refine ⟨⟨⟨365.25, -100⟩, List.mem_cons_self _ _, by norm_num, by norm_num⟩, ?_, ?_⟩
  · intro hS
    have h := hS (Set.mem_Ioi.mpr (by norm_num : (-1:ℝ) < 0))
      (Set.mem_Ioi.mpr (by norm_num : (-1:ℝ) < 1)) (by norm_num : (0:ℝ) < 1)
    simp only [hnpv, Real.rpow_one] at h
    norm_num at h
  · simp only [calculate_npv_derivative, List.map_cons, List.map_nil, List.sum_cons,
      List.sum_nil, add_zero]
    rw [show (365.25 : ℝ) / 365.25 = 1 by norm_num]
    rw [Real.one_rpow]
    norm_num

/-- Claim C5 (amended): if every cash flow either is dated at day 0 or has
nonnegative offset and nonnegative amount, and at least one flow has strictly
positive offset and strictly positive amount, then NPV is strictly decreasing
in the rate throughout the admissible domain `1 + rate > 0`, and equivalently
the NPV derivative is strictly negative there. -/
theorem c5_amended (cashflows : List CashFlow)
    (h1 : ∀ cf ∈ cashflows,
      cf.days_from_start = 0 ∨ (0 ≤ cf.days_from_start ∧ 0 ≤ cf.amount))
    (h2 : ∃ cf ∈ cashflows, 0 < cf.days_from_start ∧ 0 < cf.amount) :
    StrictAntiOn (fun r => calculate_npv cashflows r) (Set.Ioi (-1 : ℝ)) ∧
      ∀ r : ℝ, -1 < r → calculate_npv_derivative cashflows r < 0 :=
  ⟨npv_strictAntiOn cashflows h1 h2, fun _ hr => npv_deriv_neg cashflows h1 h2 hr⟩

/-- Witness for amended C5 at the single positive flow `[(365.25, 100)]`. -/
theorem c5_witness :
    calculate_npv [(⟨365.25, 100⟩ : CashFlow)] 1 <
        calculate_npv [(⟨365.25, 100⟩ : CashFlow)] 0 ∧
      calculate_npv_derivative [(⟨365.25, 100⟩ : CashFlow)] 0 < 0 := by
  have h := c5_amended [(⟨365.25, 100⟩ : CashFlow)]
    (by intro cf hcf
        simp only [List.mem_cons, List.not_mem_nil, or_false] at hcf
        subst hcf
        right
        constructor <;> norm_num)
    ⟨⟨365.25, 100⟩, List.mem_cons_self _ _, by norm_num, by norm_num⟩
  exact ⟨h.1 (Set.mem_Ioi.mpr (by norm_num)) (Set.mem_Ioi.mpr (by norm_num)) (by norm_num),
    h.2 0 (by norm_num)⟩

/-- The end-to-end example cash flows `[(0, -1000), (365, 1100)]` of claim C1. -/
noncomputable def exampleFlows : List CashFlow := [⟨0, -1000⟩, ⟨365, 1100⟩]

theorem npv_exampleFlows (r : ℝ) : calculate_npv exampleFlows r =
    -1000 + 1100 / (1 + r) ^ ((365 : ℝ) / 365.25) := by
  simp only [exampleFlows]
  exact npv_pair_day_zero _ _ _ _

/-- Raising to the 1461st power turns the day-count exponent
`365/365.25 = 1460/1461` into integer powers. -/
theorem rpow_frac_pow {x : ℝ} (hx : 0 < x) :
    (x ^ ((365 : ℝ) / 365.25)) ^ (1461 : ℕ) = x ^ (1460 : ℕ) := by
  rw [← Real.rpow_natCast (x ^ ((365 : ℝ) / 365.25)) 1461, ← Real.rpow_mul hx.le]
  rw [show (365 : ℝ) / 365.25 * ((1461 : ℕ) : ℝ) = ((1460 : ℕ) : ℝ) by push_cast; norm_num]
  exact Real.rpow_natCast x 1460

theorem rpow_frac_lt_iff {x c : ℝ} (hx : 0 < x) (hc : 0 < c) :
    x ^ ((365 : ℝ) / 365.25) < c ↔ x ^ (1460 : ℕ) < c ^ (1461 : ℕ) := by
  constructor
  · intro h
    calc x ^ (1460 : ℕ) = (x ^ ((365 : ℝ) / 365.25)) ^ (1461 : ℕ) := (rpow_frac_pow hx).symm
      _ < c ^ (1461 : ℕ) := pow_lt_pow_left h (Real.rpow_nonneg hx.le _) (by norm_num)
  · intro h
    by_contra hcon
    push_neg at hcon
    have h2 : c ^ (1461 : ℕ) ≤ (x ^ ((365 : ℝ) / 365.25)) ^ (1461 : ℕ) :=
      pow_le_pow_left hc.le hcon 1461
    rw [rpow_frac_pow hx] at h2
    linarith

theorem lt_rpow_frac_iff {x c : ℝ} (hx : 0 < x) (hc : 0 < c) :
    c < x ^ ((365 : ℝ) / 365.25) ↔ c ^ (1461 : ℕ) < x ^ (1460 : ℕ) := by
  constructor
  · intro h
    calc c ^ (1461 : ℕ) < (x ^ ((365 : ℝ) / 365.25)) ^ (1461 : ℕ) :=
          pow_lt_pow_left h hc.le (by norm_num)
      _ = x ^ (1460 : ℕ) := rpow_frac_pow hx
  · intro h
    by_contra hcon
    push_neg at hcon
    have h2 := pow_le_pow_left (Real.rpow_nonneg hx.le ((365 : ℝ) / 365.25)) hcon 1461
    rw [rpow_frac_pow hx] at h2
    linarith

/-- NPV of the C1 example is still above the tolerance at rate 0.100002. -/
theorem npv_example_at_lowmark : TOLERANCE < calculate_npv exampleFlows 0.100002 := by
  rw [npv_exampleFlows, show (1 : ℝ) + 0.100002 = 1.100002 by norm_num]
  have hs : (1.100002 : ℝ) ^ ((365 : ℝ) / 365.25) < 1100 / 1000.0000001 := by
    rw [rpow_frac_lt_iff (by norm_num) (by norm_num)]
    norm_num
  have hpos : (0 : ℝ) < (1.100002 : ℝ) ^ ((365 : ℝ) / 365.25) :=
    Real.rpow_pos_of_pos (by norm_num) _
  have h2 : (1000.0000001 : ℝ) < 1100 / (1.100002 : ℝ) ^ ((365 : ℝ) / 365.25) := by
    rw [lt_div_iff hpos]
    nlinarith
  simp only [TOLERANCE]
  linarith

/-- NPV of the C1 example is already below minus the tolerance at rate 0.10009. -/
theorem npv_example_at_highmark : calculate_npv exampleFlows 0.10009 < -TOLERANCE := by
  rw [npv_exampleFlows, show (1 : ℝ) + 0.10009 = 1.10009 by norm_num]
  have hs : (1100 : ℝ) / 999.9999999 < (1.10009 : ℝ) ^ ((365 : ℝ) / 365.25) := by
    rw [lt_rpow_frac_iff (by norm_num) (by norm_num)]
    norm_num
  have hpos : (0 : ℝ) < (1.10009 : ℝ) ^ ((365 : ℝ) / 365.25) :=
    Real.rpow_pos_of_pos (by norm_num) _
  have h2 : 1100 / (1.10009 : ℝ) ^ ((365 : ℝ) / 365.25) < 999.9999999 := by
    rw [div_lt_iff hpos]
    nlinarith
  simp only [TOLERANCE]
  linarith

/-- NPV of the C1 example is positive at the lower operational bound. -/
theorem npv_example_at_min : 0 < calculate_npv exampleFlows MIN_RATE := by
  rw [npv_exampleFlows, show (1 : ℝ) + MIN_RATE = 0.001 by norm_num [MIN_RATE]]
  have h1 : ((0.001 : ℝ)) ^ ((365 : ℝ) / 365.25) ≤ 1 :=
    Real.rpow_le_one (by norm_num) (by norm_num) (by norm_num)
  have h2 : (0 : ℝ) < (0.001 : ℝ) ^ ((365 : ℝ) / 365.25) :=
    Real.rpow_pos_of_pos (by norm_num) _
  have h3 : (1100 : ℝ) ≤ 1100 / (0.001 : ℝ) ^ ((365 : ℝ) / 365.25) := by
    rw [le_div_iff h2]
    nlinarith
  linarith

/-- NPV of the C1 example is negative at the upper operational bound. -/
theorem npv_example_at_max : calculate_npv exampleFlows MAX_RATE < 0 := by
  rw [npv_exampleFlows, show (1 : ℝ) + MAX_RATE = 11 by norm_num [MAX_RATE]]
  have hs : (1.1 : ℝ) < (11 : ℝ) ^ ((365 : ℝ) / 365.25) := by
    rw [lt_rpow_frac_iff (by norm_num) (by norm_num)]
    norm_num
  have hpos : (0 : ℝ) < (11 : ℝ) ^ ((365 : ℝ) / 365.25) :=
    Real.rpow_pos_of_pos (by norm_num) _
  have h2 : 1100 / (11 : ℝ) ^ ((365 : ℝ) / 365.25) < 1000 := by
    rw [div_lt_iff hpos]
    nlinarith
  linarith

theorem example_strictAnti :
    StrictAntiOn (fun r => calculate_npv exampleFlows r) (Set.Ioi (-1 : ℝ)) := by
  apply npv_strictAntiOn
  · intro cf hcf
    simp only [exampleFlows, List.mem_cons, List.not_mem_nil, or_false] at hcf
    rcases hcf with rfl | rfl
    · left; norm_num
    · right; constructor <;> norm_num
  · exact ⟨⟨365, 1100⟩, by simp [exampleFlows], by norm_num, by norm_num⟩

/-- Any rate in the operational interval at which the C1 example's NPV is
positive lies below 0.10009. -/
theorem example_pos_lt {l : ℝ} (hl : MIN_RATE ≤ l)
    (hpos : 0 < calculate_npv exampleFlows l) : l < 0.10009 := by
  have htol : (0 : ℝ) < TOLERANCE := by norm_num [TOLERANCE]
  have hml : l ∈ Set.Ioi (-1 : ℝ) := Set.mem_Ioi.mpr (by rw [MIN_RATE] at hl; linarith)
  by_contra hcon
  push_neg at hcon
  rcases eq_or_lt_of_le hcon with heq | hlt
  · rw [← heq] at hpos
    have := npv_example_at_highmark
    linarith
  · have hstep : calculate_npv exampleFlows l < calculate_npv exampleFlows 0.10009 :=
      example_strictAnti (Set.mem_Ioi.mpr (by norm_num)) hml hlt
    have := npv_example_at_highmark
    linarith

/-- Any rate in the operational interval at which the C1 example's NPV is
negative lies above 0.100002. -/
theorem example_neg_gt {h : ℝ} (hmin : MIN_RATE ≤ h)
    (hneg : calculate_npv exampleFlows h < 0) : 0.100002 < h := by
  have htol : (0 : ℝ) < TOLERANCE := by norm_num [TOLERANCE]
  have hmh : h ∈ Set.Ioi (-1 : ℝ) := Set.mem_Ioi.mpr (by rw [MIN_RATE] at hmin; linarith)
  by_contra hcon
  push_neg at hcon
  rcases eq_or_lt_of_le hcon with heq | hlt
  · rw [heq] at hneg
    have := npv_example_at_lowmark
    linarith
  · have hstep : calculate_npv exampleFlows 0.100002 < calculate_npv exampleFlows h :=
      example_strictAnti hmh (Set.mem_Ioi.mpr (by norm_num)) hlt
    have := npv_example_at_lowmark
    linarith

/-- Any rate returned with `|NPV| < TOLERANCE` on the C1 example lies in
`(0.100002, 0.10009)`. -/
theorem example_npv_small_bounds {r : ℝ} (h1 : |calculate_npv exampleFlows r| < TOLERANCE)
    (h2 : MIN_RATE ≤ r) (h3 : r ≤ MAX_RATE) : 0.100002 < r ∧ r < 0.10009 := by
  have htol : (0 : ℝ) < TOLERANCE := by norm_num [TOLERANCE]
  have hA : calculate_npv exampleFlows r < TOLERANCE := lt_of_abs_lt h1
  have hB : -TOLERANCE < calculate_npv exampleFlows r := neg_lt_of_abs_lt h1
  have hmr : r ∈ Set.Ioi (-1 : ℝ) := Set.mem_Ioi.mpr (by rw [MIN_RATE] at h2; linarith)
  constructor
  · by_contra hcon
    push_neg at hcon
    rcases eq_or_lt_of_le hcon with heq | hlt
    · rw [heq] at hA
      have := npv_example_at_lowmark
      linarith
    · have hstep : calculate_npv exampleFlows 0.100002 < calculate_npv exampleFlows r :=
        example_strictAnti hmr (Set.mem_Ioi.mpr (by norm_num)) hlt
      have := npv_example_at_lowmark
      linarith
  · by_contra hcon
    push_neg at hcon
    rcases eq_or_lt_of_le hcon with heq | hlt
    · rw [← heq] at hA hB
      have := npv_example_at_highmark
      linarith
    · have hstep : calculate_npv exampleFlows r < calculate_npv exampleFlows 0.10009 :=
        example_strictAnti (Set.mem_Ioi.mpr (by norm_num)) hmr hlt
      have := npv_example_at_highmark
      linarith

/-- Characterization of values returned by the bisection phase when started on
a bracket with positive NPV on the left endpoint and negative NPV on the right:
every returned value either meets the NPV tolerance or is the midpoint of a
sign-changing bracket narrower than the tolerance, and in both cases stays in
the operational interval. -/
theorem bisect_some_spec (cashflows : List CashFlow) :
    ∀ (fuel : ℕ) (low high npvlow r : ℝ),
      MIN_RATE ≤ low → low ≤ high → high ≤ MAX_RATE →
      npvlow = calculate_npv cashflows low →
      0 < calculate_npv cashflows low → calculate_npv cashflows high < 0 →
      bisectIter cashflows fuel low high npvlow = some r →
      (|calculate_npv cashflows r| < TOLERANCE ∧ MIN_RATE ≤ r ∧ r ≤ MAX_RATE) ∨
      (∃ l h, MIN_RATE ≤ l ∧ l ≤ r ∧ r ≤ h ∧ h ≤ MAX_RATE ∧ h - l < TOLERANCE ∧
        0 < calculate_npv cashflows l ∧ calculate_npv cashflows h < 0) := by
  intro fuel
  induction fuel with
  | zero =>
    intro low high npvlow r _ _ _ _ _ _ h
    exact Option.noConfusion h
  | succ k ih =>
    intro low high npvlow r hlo hlh hhi hnl hpl hnh h
    rw [bisectIter_succ] at h
    set mid := (low + high) / 2 with hmid
    have hm1 : low ≤ mid := by rw [hmid]; linarith
    have hm2 : mid ≤ high := by rw [hmid]; linarith
    by_cases hc1 : |calculate_npv cashflows mid| < TOLERANCE
    · rw [if_pos hc1] at h
      obtain rfl := Option.some.inj h
      exact Or.inl ⟨hc1, le_trans hlo hm1, le_trans hm2 hhi⟩
    · rw [if_neg hc1] at h
      by_cases hc2 : calculate_npv cashflows mid * npvlow < 0
      · rw [if_pos hc2] at h
        have hmidneg : calculate_npv cashflows mid < 0 := by
          rcases mul_neg_iff.mp hc2 with ⟨hp, hq⟩ | ⟨hp, hq⟩
          · rw [hnl] at hq; linarith
          · exact hp
        by_cases hc3 : mid - low < TOLERANCE
        · rw [if_pos hc3] at h
          obtain rfl := Option.some.inj h
          exact Or.inr ⟨low, mid, hlo, by linarith, by linarith, le_trans hm2 hhi,
            by linarith, hpl, hmidneg⟩
        · rw [if_neg hc3] at h
          exact ih low mid npvlow r hlo hm1 (le_trans hm2 hhi) hnl hpl hmidneg h
      · rw [if_neg hc2] at h
        have hlow0 : 0 < npvlow := by rw [hnl]; exact hpl
        have hmidpos : 0 < calculate_npv cashflows mid := by
          have hne : calculate_npv cashflows mid ≠ 0 := by
            intro h0
            rw [h0] at hc1
            exact hc1 (by rw [abs_zero]; norm_num [TOLERANCE])
          rcases lt_trichotomy (calculate_npv cashflows mid) 0 with hneg | h0 | hpos
          · exact absurd (mul_neg_of_neg_of_pos hneg hlow0) hc2
          · exact absurd h0 hne
          · exact hpos
        by_cases hc4 : high - mid < TOLERANCE
        · rw [if_pos hc4] at h
          obtain rfl := Option.some.inj h
          exact Or.inr ⟨mid, high, le_trans hlo hm1, by linarith, by linarith, hhi,
            by linarith, hmidpos, hnh⟩
        · rw [if_neg hc4] at h
          exact ih mid high (calculate_npv cashflows mid) r (le_trans hlo hm1) hm2 hhi rfl
            hmidpos hnh h

/-- With enough fuel relative to the bracket width, the bisection phase always
returns some value: each iteration either exits or exactly halves the bracket. -/
theorem bisect_total (cashflows : List CashFlow) :
    ∀ (fuel : ℕ) (low high npvlow : ℝ), low ≤ high →
      high - low < TOLERANCE * 2 ^ fuel → 1 ≤ fuel →
      ∃ r, bisectIter cashflows fuel low high npvlow = some r := by
  intro fuel
  induction fuel with
  | zero =>
    intro _ _ _ _ _ h
    omega
  | succ k ih =>
    intro low high npvlow hlh hw _
    rw [bisectIter_succ]
    set mid := (low + high) / 2 with hmid
    have hm1 : low ≤ mid := by rw [hmid]; linarith
    have hm2 : mid ≤ high := by rw [hmid]; linarith
    have hwl : mid - low = (high - low) / 2 := by rw [hmid]; ring
    have hwr : high - mid = (high - low) / 2 := by rw [hmid]; ring
    by_cases hc1 : |calculate_npv cashflows mid| < TOLERANCE
    · exact ⟨mid, if_pos hc1⟩
    · rw [if_neg hc1]
      by_cases hc2 : calculate_npv cashflows mid * npvlow < 0
      · rw [if_pos hc2]
        by_cases hc3 : mid - low < TOLERANCE
        · exact ⟨_, if_pos hc3⟩
        · rw [if_neg hc3]
          rcases k with _ | k2
          · exfalso
            apply hc3
            rw [show (0 : ℕ) + 1 = 1 from rfl, pow_one] at hw
            rw [hwl]
            linarith
          · refine ih low mid npvlow hm1 ?_ (by omega)
            have heq : TOLERANCE * 2 ^ (k2 + 1 + 1) = 2 * (TOLERANCE * 2 ^ (k2 + 1)) := by
              ring
            rw [heq] at hw
            rw [hwl]
            linarith
      · rw [if_neg hc2]
        by_cases hc4 : high - mid < TOLERANCE
        · exact ⟨_, if_pos hc4⟩
        · rw [if_neg hc4]
          rcases k with _ | k2
          · exfalso
            apply hc4
            rw [show (0 : ℕ) + 1 = 1 from rfl, pow_one] at hw
            rw [hwr]
            linarith
          · refine ih mid high (calculate_npv cashflows mid) hm2 ?_ (by omega)
            have heq : TOLERANCE * 2 ^ (k2 + 1 + 1) = 2 * (TOLERANCE * 2 ^ (k2 + 1)) := by
              ring
            rw [heq] at hw
            rw [hwr]
            linarith

/-- Every value the solver can return on the C1 example lies strictly between
0.1 + 1e-6 and 0.1 + 1e-4. -/
theorem xirr_example_bounds (r : ℝ) (h : calculate_xirr exampleFlows 0.1 = some r) :
    0.1 + 1e-6 < r ∧ r < 0.1 + 1e-4 := by
  have key : (|calculate_npv exampleFlows r| < TOLERANCE ∧ MIN_RATE ≤ r ∧ r ≤ MAX_RATE) ∨
      (∃ l h2, MIN_RATE ≤ l ∧ l ≤ r ∧ r ≤ h2 ∧ h2 ≤ MAX_RATE ∧ h2 - l < TOLERANCE ∧
        0 < calculate_npv exampleFlows l ∧ calculate_npv exampleFlows h2 < 0) := by
    rw [calculate_xirr, if_neg (by norm_num [exampleFlows])] at h
    rcases hN : newtonIter exampleFlows 50 0.1 with _ | r0
    · rw [hN] at h
      have hprod : ¬(calculate_npv exampleFlows MIN_RATE *
          calculate_npv exampleFlows MAX_RATE > 0) := by
        have ha := npv_example_at_min
        have hb := npv_example_at_max
        nlinarith
      have h' : (if calculate_npv exampleFlows MIN_RATE *
          calculate_npv exampleFlows MAX_RATE > 0 then (none : Option ℝ)
          else bisectIter exampleFlows 100 MIN_RATE MAX_RATE
            (calculate_npv exampleFlows MIN_RATE)) = some r := h
      rw [if_neg hprod] at h'
      exact bisect_some_spec exampleFlows 100 MIN_RATE MAX_RATE _ r le_rfl
        (by norm_num [MIN_RATE, MAX_RATE]) le_rfl rfl npv_example_at_min
        npv_example_at_max h'
    · rw [hN] at h
      have h' : some r0 = some r := h
      obtain rfl := Option.some.inj h'
      exact Or.inl (newton_some_spec exampleFlows 50 0.1 r0 hN)
  rcases key with ⟨habs, hlo, hhi⟩ | ⟨l, h2, hl1, hlr, hrh, hh2, hw, hpl, hnh⟩
  · have hb := example_npv_small_bounds habs hlo hhi
    constructor <;> [linarith [hb.1]; linarith [hb.2]]
  · have hl2 : l < 0.10009 := example_pos_lt hl1 hpl
    have hh3 : 0.100002 < h2 := example_neg_gt (by linarith) hnh
    simp only [TOLERANCE] at hw
    constructor <;> linarith

/-- Claim C1 counterexample: on `[(0, -1000), (365, 1100)]` with the default
guess 0.1, `calculate_xirr` does NOT return a value within `1e-6` of `0.10`:
with the fixed 365.25-day year, 365 days is slightly less than one year, so the
exact root is `1.1^(1461/1460) - 1 ≈ 0.1000718`, about `7.2e-5` away from
`0.10`. -/
theorem c1_counterexample :
    ¬ ∃ r, calculate_xirr exampleFlows 0.1 = some r ∧ |r - 0.1| ≤ 1e-6 := by
  rintro ⟨r, hsolve, hnear⟩
  have hb := xirr_example_bounds r hsolve
  rcases abs_le.mp hnear with ⟨_, h2⟩
  linarith [hb.1]

/-- Claim C1 (amended): on `[(0, -1000), (365, 1100)]` with the default guess
0.1, `calculate_xirr` returns a value within `1e-4` of `0.10` (the exact
admissible root is `1.1^(1461/1460) - 1 ≈ 0.1000718`). -/
theorem c1_amended :
    ∃ r, calculate_xirr exampleFlows 0.1 = some r ∧ |r - 0.1| < 1e-4 := by
  have hex : ∃ r, calculate_xirr exampleFlows 0.1 = some r := by
    rw [calculate_xirr, if_neg (by norm_num [exampleFlows])]
    rcases hN : newtonIter exampleFlows 50 0.1 with _ | r0
    · have hprod : ¬(calculate_npv exampleFlows MIN_RATE *
          calculate_npv exampleFlows MAX_RATE > 0) := by
        have ha := npv_example_at_min
        have hb := npv_example_at_max
        nlinarith
      show ∃ r, (if calculate_npv exampleFlows MIN_RATE *
          calculate_npv exampleFlows MAX_RATE > 0 then (none : Option ℝ)
          else bisectIter exampleFlows 100 MIN_RATE MAX_RATE
            (calculate_npv exampleFlows MIN_RATE)) = some r
      rw [if_neg hprod]
      refine bisect_total exampleFlows 100 MIN_RATE MAX_RATE _
        (by norm_num [MIN_RATE, MAX_RATE]) ?_ (by norm_num)
      simp only [TOLERANCE, MIN_RATE, MAX_RATE]
      norm_num
    · exact ⟨r0, rfl⟩
  rcases hex with ⟨r, hr⟩
  have hb := xirr_example_bounds r hr
  refine ⟨r, hr, ?_⟩
  rw [abs_lt]
  constructor <;> linarith [hb.1, hb.2]

/-- Per-step price change `ptr[i] - ptr[i-1]` (indicators.cpp, `calculate_rsi`);
at index 0 both reads coincide so the change is 0, matching the source's
untouched `gains[0] = losses[0] = 0`. -/
noncomputable def priceChange (prices : List ℝ) (i : ℕ) : ℝ :=
  prices.getD i 0 - prices.getD (i - 1) 0

/-- Gain series (indicators.cpp, `calculate_rsi`): positive changes, else 0. -/
noncomputable def gainAt (prices : List ℝ) (i : ℕ) : ℝ :=
  if 0 < priceChange prices i then priceChange prices i else 0

/-- Loss series: magnitude of nonpositive changes, else 0. -/
noncomputable def lossAt (prices : List ℝ) (i : ℕ) : ℝ :=
  if 0 < priceChange prices i then 0 else -priceChange prices i

/-- Seed averages: simple means of the gains/losses at indices `1..period`
(indicators.cpp, `calculate_rsi`, "Initial average"). -/
noncomputable def rsiSeed (prices : List ℝ) (period : ℕ) : ℝ × ℝ :=
  ((∑ j ∈ Finset.range period, gainAt prices (j + 1)) / (period : ℝ),
   (∑ j ∈ Finset.range period, lossAt prices (j + 1)) / (period : ℝ))

/-- Wilder-smoothed averages after `k` smoothing steps; the source loop runs
`i = period, ..., n-1` and the averages after processing index `i` are
`rsiState (i - period + 1)`. -/
noncomputable def rsiState (prices : List ℝ) (period : ℕ) : ℕ → ℝ × ℝ
  | 0 => rsiSeed prices period
  | k + 1 =>
    (((rsiState prices period k).1 * ((period : ℝ) - 1) + gainAt prices (period + k)) /
        (period : ℝ),
     ((rsiState prices period k).2 * ((period : ℝ) - 1) + lossAt prices (period + k)) /
        (period : ℝ))

/-- Output value of the oscillator at an index `i ≥ period`
(indicators.cpp, `calculate_rsi`): 100 when the smoothed average loss is
exactly zero, else `100 - 100/(1 + rs)`. -/
noncomputable def rsiValue (prices : List ℝ) (period : ℕ) (i : ℕ) : ℝ :=
  if (rsiState prices period (i + 1 - period)).2 = 0 then 100
  else 100 - 100 / (1 + (rsiState prices period (i + 1 - period)).1 /
    (rsiState prices period (i + 1 - period)).2)

/-- RSI (indicators.cpp, `calculate_rsi`): entries before index `period` keep
the placeholder 0. The source seeds from `gains[1..period]` unconditionally,
which is an out-of-bounds read whenever `prices.length ≤ period` (see
`rsiSeedReadsInBounds` below); this total embedding is therefore faithful only
for `period < prices.length`, and every theorem about it assumes that. -/
noncomputable def calculate_rsi (prices : List ℝ) (period : ℕ) : List ℝ :=
  (List.range prices.length).map fun i => if i < period then 0 else rsiValue prices period i

/-- EMA smoothing factor `2/(period+1)` (indicators.cpp, `calculate_macd`). -/
noncomputable def emaAlpha (period : ℕ) : ℝ := 2 / ((period : ℝ) + 1)

/-- Recursive EMA seeded at the first price (indicators.cpp, `calculate_macd`). -/
noncomputable def emaAt (alpha : ℝ) (prices : List ℝ) : ℕ → ℝ
  | 0 => prices.getD 0 0
  | i + 1 => alpha * prices.getD (i + 1) 0 + (1 - alpha) * emaAt alpha prices i

/-- MACD line: fast EMA minus slow EMA from index 1 on; index 0 keeps 0 because
the source's macd loop starts at 1. -/
noncomputable def macdLineAt (prices : List ℝ) (fast_period slow_period : ℕ) (i : ℕ) : ℝ :=
  if i = 0 then 0
  else emaAt (emaAlpha fast_period) prices i - emaAt (emaAlpha slow_period) prices i

/-- The signal line's recursion above its seed `signal[slow_period] =
macd[slow_period]` (indicators.cpp, `calculate_macd`). -/
noncomputable def signalAt (prices : List ℝ) (fast_period slow_period signal_period : ℕ) :
    ℕ → ℝ
  | 0 => macdLineAt prices fast_period slow_period slow_period
  | k + 1 =>
    emaAlpha signal_period * macdLineAt prices fast_period slow_period (slow_period + k + 1) +
      (1 - emaAlpha signal_period) * signalAt prices fast_period slow_period signal_period k

/-- Signal value at an absolute index: 0 before `slow_period`. -/
noncomputable def signalLineAt (prices : List ℝ)
    (fast_period slow_period signal_period i : ℕ) : ℝ :=
  if i < slow_period then 0
  else signalAt prices fast_period slow_period signal_period (i - slow_period)

/-- Histogram: MACD minus signal from index `slow_period + 1` on; 0 before,
matching the source loop that starts at `slow_period + 1`. -/
noncomputable def histogramAt (prices : List ℝ)
    (fast_period slow_period signal_period i : ℕ) : ℝ :=
  if i < slow_period + 1 then 0
  else macdLineAt prices fast_period slow_period i -
    signalLineAt prices fast_period slow_period signal_period i

/-- MACD (indicators.cpp, `calculate_macd`): (macd, signal, histogram). The
source unconditionally reads `ptr[0]` and writes `signal[slow_period]`, which
is out of bounds whenever `prices.length ≤ slow_period` (in particular on an
empty input); this total embedding is therefore faithful only for
`slow_period < prices.length`, and every theorem about it assumes that. -/
noncomputable def calculate_macd (prices : List ℝ)
    (fast_period slow_period signal_period : ℕ) : List ℝ × List ℝ × List ℝ :=
  ((List.range prices.length).map (macdLineAt prices fast_period slow_period),
   (List.range prices.length).map (signalLineAt prices fast_period slow_period signal_period),
   (List.range prices.length).map (histogramAt prices fast_period slow_period signal_period))

/-- Trailing-window sum `Σ_{j<period} prices[i-j]` (indicators.cpp,
`calculate_bollinger_bands`). -/
noncomputable def windowSum (prices : List ℝ) (period i : ℕ) : ℝ :=
  ∑ j ∈ Finset.range period, prices.getD (i - j) 0

/-- Rolling mean over the trailing window. -/
noncomputable def windowMean (prices : List ℝ) (period i : ℕ) : ℝ :=
  windowSum prices period i / (period : ℝ)

/-- Rolling population variance over the trailing window (sum of squared
deviations divided by `period`, as in the source's `variance / period`). -/
noncomputable def windowVariance (prices : List ℝ) (period i : ℕ) : ℝ :=
  (∑ j ∈ Finset.range period,
    (prices.getD (i - j) 0 - windowMean prices period i) ^ 2) / (period : ℝ)

/-- Bollinger bands (indicators.cpp, `calculate_bollinger_bands`):
(upper, middle, lower); indices before `period - 1` hold 0. A window length of
0 computes nothing anywhere because the C++ loop start `period - 1` wraps to a
huge unsigned index, hence the `1 ≤ period` guard in the embedding. -/
noncomputable def calculate_bollinger_bands (prices : List ℝ) (period : ℕ)
    (num_std : ℝ) : List ℝ × List ℝ × List ℝ :=
  ((List.range prices.length).map fun i =>
      if 1 ≤ period ∧ period - 1 ≤ i then
        windowMean prices period i + num_std * Real.sqrt (windowVariance prices period i)
      else 0,
   (List.range prices.length).map fun i =>
      if 1 ≤ period ∧ period - 1 ≤ i then windowMean prices period i else 0,
   (List.range prices.length).map fun i =>
      if 1 ≤ period ∧ period - 1 ≤ i then
        windowMean prices period i - num_std * Real.sqrt (windowVariance prices period i)
      else 0)

/-- Rolling mean of one input over the trailing correlation window
(indicators.cpp, `rolling_correlation`, `sum_x / window`). -/
noncomputable def corrMean (v : List ℝ) (window i : ℕ) : ℝ :=
  (∑ j ∈ Finset.range window, v.getD (i - j) 0) / (window : ℝ)

/-- Rolling mean of squares (`sum_xx / window`). -/
noncomputable def corrSq (v : List ℝ) (window i : ℕ) : ℝ :=
  (∑ j ∈ Finset.range window, v.getD (i - j) 0 * v.getD (i - j) 0) / (window : ℝ)

/-- Rolling standard deviation via the source's sum-of-products formula
`sqrt(sum_xx/window - mean*mean)`. -/
noncomputable def corrStd (v : List ℝ) (window i : ℕ) : ℝ :=
  Real.sqrt (corrSq v window i - corrMean v window i * corrMean v window i)

/-- Rolling covariance `sum_xy/window - mean_x*mean_y`. -/
noncomputable def corrCov (x y : List ℝ) (window i : ℕ) : ℝ :=
  (∑ j ∈ Finset.range window, x.getD (i - j) 0 * y.getD (i - j) 0) / (window : ℝ) -
    corrMean x window i * corrMean y window i

/-- Rolling correlation (indicators.cpp, `rolling_correlation`): entries before
`window - 1` hold 0, and an entry is only divided when both rolling standard
deviations are strictly positive, else it stays 0. -/
noncomputable def rolling_correlation (x y : List ℝ) (window : ℕ) : List ℝ :=
  (List.range x.length).map fun i =>
    if 1 ≤ window ∧ window - 1 ≤ i then
      if 0 < corrStd x window i ∧ 0 < corrStd y window i then
        corrCov x y window i / (corrStd x window i * corrStd y window i)
      else 0
    else 0

/-- Entry `i` of a map over `List.range`. -/
theorem getD_map_range (n i : ℕ) (f : ℕ → ℝ) :
    ((List.range n).map f).getD i 0 = if i < n then f i else 0 := by
  by_cases h : i < n
  · rw [if_pos h, List.getD_eq_getElem?_getD, List.getElem?_map, List.getElem?_range h]
    rfl
  · rw [if_neg h, List.getD_eq_getElem?_getD, List.getElem?_eq_none]
    · rfl
    · simpa using not_lt.mp h

/-- Claim C7: every indicator output has exactly the input's length, and the
entries before each indicator's lookback horizon hold the placeholder zero: the
first `period - 1` (in fact `period`) entries of the oscillator, the first
`period - 1` entries of all three volatility bands, the first `window - 1`
entries of the rolling correlation, and for the convergence/divergence
indicator the primary line's seed entry 0 and the first `slow_period - 1` (in
fact `slow_period`) entries of the signal and histogram lines. The oscillator
and convergence/divergence inputs are restricted to the lengths at which the
source itself stays in bounds (`period < length`, respectively
`slow_period < length`, see the definitions' comments); shorter inputs make the
source read or write out of bounds, the defect recorded at
`rsiSeedReadsInBounds`. -/
theorem c7_alignment (p x y : List ℝ) (period fast_period slow_period signal_period bbP win : ℕ)
    (nstd : ℝ) (hrsi : period + 1 ≤ p.length) (hmacd : slow_period + 1 ≤ p.length) :
    (calculate_rsi p period).length = p.length ∧
      (∀ i, i < period - 1 → (calculate_rsi p period).getD i 0 = 0) ∧
      (calculate_macd p fast_period slow_period signal_period).1.length = p.length ∧
      (calculate_macd p fast_period slow_period signal_period).2.1.length = p.length ∧
      (calculate_macd p fast_period slow_period signal_period).2.2.length = p.length ∧
      (calculate_macd p fast_period slow_period signal_period).1.getD 0 0 = 0 ∧
      (∀ i, i < slow_period - 1 →
        (calculate_macd p fast_period slow_period signal_period).2.1.getD i 0 = 0) ∧
      (∀ i, i < slow_period - 1 →
        (calculate_macd p fast_period slow_period signal_period).2.2.getD i 0 = 0) ∧
      (calculate_bollinger_bands p bbP nstd).1.length = p.length ∧
      (calculate_bollinger_bands p bbP nstd).2.1.length = p.length ∧
      (calculate_bollinger_bands p bbP nstd).2.2.length = p.length ∧
      (∀ i, i < bbP - 1 →
        (calculate_bollinger_bands p bbP nstd).1.getD i 0 = 0 ∧
        (calculate_bollinger_bands p bbP nstd).2.1.getD i 0 = 0 ∧
        (calculate_bollinger_bands p bbP nstd).2.2.getD i 0 = 0) ∧
      (rolling_correlation x y win).length = x.length ∧
      (∀ i, i < win - 1 → (rolling_correlation x y win).getD i 0 = 0) := by
  refine ⟨?_, ?_, ?_, ?_, ?_, ?_, ?_, ?_, ?_, ?_, ?_, ?_, ?_, ?_⟩
  · simp [calculate_rsi]
  · intro i hi
    simp only [calculate_rsi, getD_map_range]
    split_ifs with h1 h2
    · rfl
    · exact absurd (by omega : i < period) h2
    · rfl
  · simp [calculate_macd]
  · simp [calculate_macd]
  · simp [calculate_macd]
  · simp only [calculate_macd, getD_map_range]
    split_ifs with h1
    · simp [macdLineAt]
    · rfl
  · intro i hi
    simp only [calculate_macd, getD_map_range]
    split_ifs with h1
    · rw [signalLineAt, if_pos (by omega : i < slow_period)]
    · rfl
  · intro i hi
    simp only [calculate_macd, getD_map_range]
    split_ifs with h1
    · rw [histogramAt, if_pos (by omega : i < slow_period + 1)]
    · rfl
  · simp [calculate_bollinger_bands]
  · simp [calculate_bollinger_bands]
  · simp [calculate_bollinger_bands]
  · intro i hi
    refine ⟨?_, ?_, ?_⟩ <;>
      · simp only [calculate_bollinger_bands, getD_map_range]
        split_ifs with h1 h2
        · exact absurd h2.2 (by omega)
        · rfl
        · rfl
  · simp [rolling_correlation]
  · intro i hi
    simp only [rolling_correlation, getD_map_range]
    split_ifs with h1 h2 h3
    all_goals first
      | rfl
      | exact absurd h2.2 (by omega)

/-- Witness for C7 at prices `[1, 2, 3]` (oscillator period 2, MACD periods
1/2/1, band window 2) and the pair `[1, 2]`, `[3, 4]` with window 2; both
length hypotheses hold since 3 ≥ 2 + 1. -/
theorem c7_witness :
    (calculate_rsi [1, 2, 3] 2).length = ([1, 2, 3] : List ℝ).length ∧
      (∀ i, i < 2 - 1 → (calculate_rsi [1, 2, 3] 2).getD i 0 = 0) ∧
      (calculate_macd [1, 2, 3] 1 2 1).1.length = ([1, 2, 3] : List ℝ).length ∧
      (calculate_macd [1, 2, 3] 1 2 1).2.1.length = ([1, 2, 3] : List ℝ).length ∧
      (calculate_macd [1, 2, 3] 1 2 1).2.2.length = ([1, 2, 3] : List ℝ).length ∧
      (calculate_macd [1, 2, 3] 1 2 1).1.getD 0 0 = 0 ∧
      (∀ i, i < 2 - 1 → (calculate_macd [1, 2, 3] 1 2 1).2.1.getD i 0 = 0) ∧
      (∀ i, i < 2 - 1 → (calculate_macd [1, 2, 3] 1 2 1).2.2.getD i 0 = 0) ∧
      (calculate_bollinger_bands [1, 2, 3] 2 2).1.length = ([1, 2, 3] : List ℝ).length ∧
      (calculate_bollinger_bands [1, 2, 3] 2 2).2.1.length = ([1, 2, 3] : List ℝ).length ∧
      (calculate_bollinger_bands [1, 2, 3] 2 2).2.2.length = ([1, 2, 3] : List ℝ).length ∧
      (∀ i, i < 2 - 1 →
        (calculate_bollinger_bands [1, 2, 3] 2 2).1.getD i 0 = 0 ∧
        (calculate_bollinger_bands [1, 2, 3] 2 2).2.1.getD i 0 = 0 ∧
        (calculate_bollinger_bands [1, 2, 3] 2 2).2.2.getD i 0 = 0) ∧
      (rolling_correlation [1, 2] [3, 4] 2).length = ([1, 2] : List ℝ).length ∧
      (∀ i, i < 2 - 1 → (rolling_correlation [1, 2] [3, 4] 2).getD i 0 = 0) :=
  c7_alignment [1, 2, 3] [1, 2] [3, 4] 2 1 2 1 2 2 2 (by simp) (by simp)

theorem gainAt_nonneg (prices : List ℝ) (i : ℕ) : 0 ≤ gainAt prices i := by
  rw [gainAt]
  split_ifs with h
  · exact h.le
  · exact le_refl 0

theorem lossAt_nonneg (prices : List ℝ) (i : ℕ) : 0 ≤ lossAt prices i := by
  rw [lossAt]
  split_ifs with h
  · exact le_refl 0
  · push_neg at h
    linarith

/-- Both Wilder-smoothed averages stay nonnegative through every step. -/
theorem rsiState_nonneg (prices : List ℝ) (period : ℕ) (hper : 1 ≤ period) :
    ∀ k : ℕ, 0 ≤ (rsiState prices period k).1 ∧ 0 ≤ (rsiState prices period k).2 := by
  have hp0 : (0 : ℝ) ≤ (period : ℝ) := Nat.cast_nonneg period
  have hp1 : (1 : ℝ) ≤ (period : ℝ) := by exact_mod_cast hper
  intro k
  induction k with
  | zero =>
    constructor
    · exact div_nonneg (Finset.sum_nonneg fun j _ => gainAt_nonneg prices (j + 1)) hp0
    · exact div_nonneg (Finset.sum_nonneg fun j _ => lossAt_nonneg prices (j + 1)) hp0
  | succ m ih =>
    constructor
    · refine div_nonneg ?_ hp0
      have := mul_nonneg ih.1 (by linarith : (0 : ℝ) ≤ (period : ℝ) - 1)
      have := gainAt_nonneg prices (period + m)
      linarith
    · refine div_nonneg ?_ hp0
      have := mul_nonneg ih.2 (by linarith : (0 : ℝ) ≤ (period : ℝ) - 1)
      have := lossAt_nonneg prices (period + m)
      linarith

/-- Every oscillator output value is between 0 and 100. -/
theorem rsiValue_mem_Icc (prices : List ℝ) (period : ℕ) (hper : 1 ≤ period) (i : ℕ) :
    0 ≤ rsiValue prices period i ∧ rsiValue prices period i ≤ 100 := by
  rw [rsiValue]
  split_ifs with h0
  · norm_num
  · have hst := rsiState_nonneg prices period hper (i + 1 - period)
    have hlpos : 0 < (rsiState prices period (i + 1 - period)).2 :=
      lt_of_le_of_ne hst.2 (Ne.symm h0)
    have hrs : 0 ≤ (rsiState prices period (i + 1 - period)).1 /
        (rsiState prices period (i + 1 - period)).2 := div_nonneg hst.1 hst.2
    have hfrac1 : 100 / (1 + (rsiState prices period (i + 1 - period)).1 /
        (rsiState prices period (i + 1 - period)).2) ≤ 100 := by
      rw [div_le_iff (by linarith)]
      nlinarith
    have hfrac0 : 0 < 100 / (1 + (rsiState prices period (i + 1 - period)).1 /
        (rsiState prices period (i + 1 - period)).2) :=
      div_pos (by norm_num) (by linarith)
    constructor <;> linarith

/-- Claim C6: for a price sequence long enough to seed the oscillator and any
period of at least 1, every computed oscillator value lies in `[0, 100]`; the
smoothed average gain and average loss stay nonnegative through every Wilder
smoothing step, and a zero smoothed average loss yields exactly 100. -/
theorem c6_rsi_bounds (prices : List ℝ) (period : ℕ)
    (hper : 1 ≤ period) (hlen : period + 1 ≤ prices.length) :
    (∀ v ∈ calculate_rsi prices period, 0 ≤ v ∧ v ≤ 100) ∧
      (∀ k : ℕ, 0 ≤ (rsiState prices period k).1 ∧ 0 ≤ (rsiState prices period k).2) ∧
      (∀ i : ℕ, period ≤ i → (rsiState prices period (i + 1 - period)).2 = 0 →
        rsiValue prices period i = 100) := by
  refine ⟨?_, rsiState_nonneg prices period hper, ?_⟩
  · intro v hv
    simp only [calculate_rsi, List.mem_map, List.mem_range] at hv
    obtain ⟨i, hi, rfl⟩ := hv
    split_ifs with h
    · norm_num
    · exact rsiValue_mem_Icc prices period hper i
  · intro i hi h0
    rw [rsiValue, if_pos h0]

/-- Witness for C6 at prices `[1, 2]` with period 1 (the average loss is zero,
so the single computed value is exactly 100 and all bounds hold). -/
theorem c6_witness :
    (∀ v ∈ calculate_rsi [1, 2] 1, 0 ≤ v ∧ v ≤ 100) ∧
      (∀ k : ℕ, 0 ≤ (rsiState [1, 2] 1 k).1 ∧ 0 ≤ (rsiState [1, 2] 1 k).2) ∧
      (∀ i : ℕ, 1 ≤ i → (rsiState [1, 2] 1 (i + 1 - 1)).2 = 0 →
        rsiValue [1, 2] 1 i = 100) :=
  c6_rsi_bounds [1, 2] 1 (by norm_num) (by simp)

/-- The specification's formulation of the window statistic: the simple mean of
the trailing window `prices[i+1-period .. i]`, indexed forward. -/
noncomputable def specWindowMean (prices : List ℝ) (period i : ℕ) : ℝ :=
  (∑ m ∈ Finset.range period, prices.getD (i + 1 - period + m) 0) / (period : ℝ)

/-- The specification's population variance of the trailing window (squared
deviations from the mean, divided by the window length, not length - 1). -/
noncomputable def specWindowVariance (prices : List ℝ) (period i : ℕ) : ℝ :=
  (∑ m ∈ Finset.range period,
    (prices.getD (i + 1 - period + m) 0 - specWindowMean prices period i) ^ 2) / (period : ℝ)

/-- The source's backward-indexed window sum equals the forward-indexed one. -/
theorem windowSum_eq_spec (prices : List ℝ) (period i : ℕ) (h : period - 1 ≤ i) :
    windowSum prices period i =
      ∑ m ∈ Finset.range period, prices.getD (i + 1 - period + m) 0 := by
  rw [windowSum]
  conv_rhs => rw [← Finset.sum_range_reflect]
  apply Finset.sum_congr rfl
  intro j hj
  have hj2 := Finset.mem_range.mp hj
  congr 1
  omega

theorem windowMean_eq_spec (prices : List ℝ) (period i : ℕ) (h : period - 1 ≤ i) :
    windowMean prices period i = specWindowMean prices period i := by
  rw [windowMean, specWindowMean, windowSum_eq_spec prices period i h]

theorem windowVariance_eq_spec (prices : List ℝ) (period i : ℕ) (h : period - 1 ≤ i) :
    windowVariance prices period i = specWindowVariance prices period i := by
  rw [windowVariance, specWindowVariance, windowMean_eq_spec prices period i h]
  congr 1
  conv_rhs => rw [← Finset.sum_range_reflect]
  apply Finset.sum_congr rfl
  intro j hj
  have hj2 := Finset.mem_range.mp hj
  have harg : i + 1 - period + (period - 1 - j) = i - j := by omega
  rw [harg]

/-- Claim C8: at every index with a full trailing window, the middle band
output equals the simple mean of that window and the upper and lower outputs
equal the mean plus and minus the multiplier times the population standard
deviation (variance divided by window length, not length - 1). -/
theorem c8_bollinger_values (prices : List ℝ) (period i : ℕ) (num_std : ℝ)
    (hper : 1 ≤ period) (hwin : period - 1 ≤ i) (hi : i < prices.length) :
    (calculate_bollinger_bands prices period num_std).2.1.getD i 0 =
        specWindowMean prices period i ∧
      (calculate_bollinger_bands prices period num_std).1.getD i 0 =
        specWindowMean prices period i +
          num_std * Real.sqrt (specWindowVariance prices period i) ∧
      (calculate_bollinger_bands prices period num_std).2.2.getD i 0 =
        specWindowMean prices period i -
          num_std * Real.sqrt (specWindowVariance prices period i) := by
  refine ⟨?_, ?_, ?_⟩ <;>
    · simp only [calculate_bollinger_bands, getD_map_range,
        windowMean_eq_spec prices period i hwin, windowVariance_eq_spec prices period i hwin]
      rw [if_pos hi, if_pos (And.intro hper hwin)]

/-- Witness for C8 at prices `[1, 2, 3]`, window 2, multiplier 2, index 2. -/
theorem c8_witness :
    (calculate_bollinger_bands [1, 2, 3] 2 2).2.1.getD 2 0 = specWindowMean [1, 2, 3] 2 2 ∧
      (calculate_bollinger_bands [1, 2, 3] 2 2).1.getD 2 0 = specWindowMean [1, 2, 3] 2 2 +
        2 * Real.sqrt (specWindowVariance [1, 2, 3] 2 2) ∧
      (calculate_bollinger_bands [1, 2, 3] 2 2).2.2.getD 2 0 = specWindowMean [1, 2, 3] 2 2 -
        2 * Real.sqrt (specWindowVariance [1, 2, 3] 2 2) :=
  c8_bollinger_values [1, 2, 3] 2 2 2 (by norm_num) (by norm_num) (by simp)

/-- The specification's population standard deviation over the trailing
correlation window. -/
noncomputable def specWindowStd (v : List ℝ) (window i : ℕ) : ℝ :=
  Real.sqrt ((∑ j ∈ Finset.range window,
    (v.getD (i - j) 0 - corrMean v window i) ^ 2) / (window : ℝ))

/-- The source's sum-of-products expression under the square root equals the
population variance over the window. -/
theorem corr_variance_identity (v : List ℝ) (window i : ℕ) (hw : 1 ≤ window) :
    corrSq v window i - corrMean v window i * corrMean v window i =
      (∑ j ∈ Finset.range window,
        (v.getD (i - j) 0 - corrMean v window i) ^ 2) / (window : ℝ) := by
  have hwpos : (0 : ℝ) < (window : ℝ) := by exact_mod_cast hw
  have hw0 : ((window : ℝ)) ≠ 0 := ne_of_gt hwpos
  have hS : ∑ j ∈ Finset.range window, v.getD (i - j) 0 =
      (window : ℝ) * corrMean v window i := by
    rw [corrMean]
    field_simp
  have h1 : ∀ j ∈ Finset.range window,
      (v.getD (i - j) 0 - corrMean v window i) ^ 2 =
        v.getD (i - j) 0 * v.getD (i - j) 0 -
          2 * corrMean v window i * v.getD (i - j) 0 +
          corrMean v window i * corrMean v window i := fun j _ => by ring
  have hexp : ∑ j ∈ Finset.range window,
      (v.getD (i - j) 0 - corrMean v window i) ^ 2 =
        (∑ j ∈ Finset.range window, v.getD (i - j) 0 * v.getD (i - j) 0) -
          2 * corrMean v window i * (∑ j ∈ Finset.range window, v.getD (i - j) 0) +
          (window : ℝ) * (corrMean v window i * corrMean v window i) := by
    rw [Finset.sum_congr rfl h1, Finset.sum_add_distrib, Finset.sum_sub_distrib,
      ← Finset.mul_sum, Finset.sum_const, Finset.card_range, nsmul_eq_mul]
  rw [corrSq, hexp, hS]
  field_simp
  ring

theorem corrStd_eq_spec (v : List ℝ) (window i : ℕ) (hw : 1 ≤ window) :
    corrStd v window i = specWindowStd v window i := by
  rw [corrStd, specWindowStd, corr_variance_identity v window i hw]

/-- Claim C9: for equal-length inputs and an index with a full trailing window,
if either rolling population standard deviation over that window is exactly
zero, the correlation output at that index is zero rather than the result of a
division. -/
theorem c9_zero_std_yields_zero (x y : List ℝ) (window i : ℕ)
    (hw : 1 ≤ window) (hwin : window - 1 ≤ i) (hi : i < x.length)
    (hlen : x.length = y.length)
    (h0 : specWindowStd x window i = 0 ∨ specWindowStd y window i = 0) :
    (rolling_correlation x y window).getD i 0 = 0 := by
  simp only [rolling_correlation, getD_map_range]
  rw [if_pos hi, if_pos (And.intro hw hwin)]
  have hcond : ¬(0 < corrStd x window i ∧ 0 < corrStd y window i) := by
    rcases h0 with h | h
    · rintro ⟨hx, -⟩
      rw [corrStd_eq_spec x window i hw, h] at hx
      exact lt_irrefl 0 hx
    · rintro ⟨-, hy⟩
      rw [corrStd_eq_spec y window i hw, h] at hy
      exact lt_irrefl 0 hy
  rw [if_neg hcond]

/-- Witness for C9: `x = [1, 1]` is constant on the window so its rolling
population standard deviation is zero and the correlation entry is zero. -/
theorem c9_witness : (rolling_correlation [1, 1] [2, 3] 2).getD 1 0 = 0 := by
  refine c9_zero_std_yields_zero [1, 1] [2, 3] 2 1 (by norm_num) (by norm_num)
    (by simp) (by simp) (Or.inl ?_)
  have hmean : corrMean [1, 1] 2 1 = 1 := by
    norm_num [corrMean, Finset.sum_range_succ]
  norm_num [specWindowStd, hmean, Finset.sum_range_succ, Real.sqrt_zero]

/-- The indices read from the gain/loss buffers (of length `n`) by the
oscillator's seeding loop (indicators.cpp, `for (int i = 1; i <= period; ++i)
{ avg_gain += gains[i]; ... }`). -/
def rsiSeedReadIndices (period : ℕ) : List ℕ := (List.range period).map (· + 1)

/-- All seeding-loop reads stay inside buffers of length `n`. -/
def rsiSeedReadsInBounds (n period : ℕ) : Prop :=
  ∀ i ∈ rsiSeedReadIndices period, i < n

instance (n period : ℕ) : Decidable (rsiSeedReadsInBounds n period) :=
  List.decidableBAll (fun i => i < n) (rsiSeedReadIndices period)

/-- Claim C10 fails on the code: for a single price sample (n = 1, so the gain
and loss buffers have length 1) and the default period 14, the seeding loop
reads indices 1..14, which are out of bounds; with enough history (n = 16) all
seed reads are in bounds. -/
theorem c10_seed_read_out_of_bounds :
    ¬ rsiSeedReadsInBounds 1 14 ∧ rsiSeedReadsInBounds 16 14 := by
  constructor
  · decide
  · decide
